import Mathlib

/-!
# Verification of the `mime-multipart` crate against its specification

The crate's source (`src/error.rs`) defines the error type of the
multipart parser.  We embed that error type, its `Display`, `Debug`,
`From` and `StdError` implementations, and — since the parser core
itself is described only by the specification — a model of the
multipart driver built from the spec's state machine (§4, §6).
-/

namespace MimeMultipart

/-- Model of `httparse::Error` (external): carries its display text. -/
structure HttparseError where
  msg : String
deriving DecidableEq, Repr

/-- Model of `std::io::Error` (external): carries its display text. -/
structure IoError where
  msg : String
deriving DecidableEq, Repr

/-- Model of `hyper::Error` (external): carries its display text. -/
structure HyperError where
  msg : String
deriving DecidableEq, Repr

/-- Model of `std::string::FromUtf8Error` (external): carries its display text. -/
structure FromUtf8Error where
  msg : String
deriving DecidableEq, Repr

/-- The error type of the crate, embedding the Rust `enum Error` of
`src/error.rs` lines 18–43: ten payload-free kinds, four kinds wrapping
an external error value, and `Decoding` carrying a `Cow` message
(modelled as `String`). -/
inductive Error where
  | NoRequestContentType
  | NotMultipart
  | BoundaryNotSpecified
  | PartialHeaders
  | EofInMainHeaders
  | EofBeforeFirstBoundary
  | NoCrLfAfterBoundary
  | EofInPartHeaders
  | EofInFile
  | EofInPart
  | Httparse (e : HttparseError)
  | Io (e : IoError)
  | Hyper (e : HyperError)
  | Utf8 (e : FromUtf8Error)
  | Decoding (msg : String)
deriving DecidableEq, Repr

/-- `impl From<io::Error> for Error` (error.rs lines 45–49). -/
def Error.fromIo (err : IoError) : Error := Error.Io err

/-- `impl From<httparse::Error> for Error` (error.rs lines 51–55). -/
def Error.fromHttparse (err : HttparseError) : Error := Error.Httparse err

/-- `impl From<hyper::Error> for Error` (error.rs lines 57–61). -/
def Error.fromHyper (err : HyperError) : Error := Error.Hyper err

/-- `impl From<FromUtf8Error> for Error` (error.rs lines 63–67). -/
def Error.fromUtf8 (err : FromUtf8Error) : Error := Error.Utf8 err

/-- `impl Display for Error` (error.rs lines 69–104): the string written
to the formatter by `fmt`. -/
def Error.display : Error → String
  | .NoRequestContentType => "No request Content-Type"
  | .NotMultipart => "Not a multipart"
  | .BoundaryNotSpecified => "Boundary not specified"
  | .PartialHeaders => "Partial headers"
  | .EofInMainHeaders => "EOF in Main headers"
  | .EofBeforeFirstBoundary => "EOF Before First boundary"
  | .NoCrLfAfterBoundary => "No CR-LF After boundary"
  | .EofInPartHeaders => "EOF in Partial headers"
  | .EofInFile => "EOF in File"
  | .EofInPart => "EOF in Part"
  | .Httparse e => "Httparse: " ++ e.msg
  | .Io e => "Io: " ++ e.msg
  | .Hyper e => "Hyper: " ++ e.msg
  | .Utf8 e => "Utf8: " ++ e.msg
  | .Decoding m => "Decoding: " ++ m

/-- `description` of `impl StdError for Error` (error.rs lines 116–146). -/
def Error.description : Error → String
  | .NoRequestContentType => "The Hyper request did not have a Content-Type header."
  | .NotMultipart => "The Hyper request Content-Type top-level Mime was not multipart."
  | .BoundaryNotSpecified => "The Content-Type header failed to specify a boundary token."
  | .PartialHeaders => "A multipart section contained only partial headers."
  | .EofInMainHeaders => "The request headers ended pre-maturely."
  | .EofBeforeFirstBoundary => "The request body ended prior to reaching the expected starting boundary."
  | .NoCrLfAfterBoundary => "Missing CRLF after boundary."
  | .EofInPartHeaders => "The request body ended prematurely while parsing headers of a multipart part."
  | .EofInFile => "The request body ended prematurely while streaming a file part."
  | .EofInPart => "The request body ended prematurely while reading a multipart part."
  | .Httparse _ => "A parse error occurred while parsing the headers of a multipart section."
  | .Io _ => "An I/O error occurred."
  | .Hyper _ => "A Hyper error occurred."
  | .Utf8 _ => "A UTF-8 error occurred."
  | .Decoding _ => "A decoding error occurred."

/-- `source` of the `StdError` impl (error.rs lines 116–146): the impl
defines only `description`, so `source` keeps the trait's default, which
returns `None` for every value.  The codomain models `Option<&dyn Error>`
as the optional debug text of the cause. -/
def Error.src (_ : Error) : Option String := none

/-- `impl fmt::Debug for Error` (error.rs lines 106–114): writes the
`Display` text, then, if `source()` is `Some`, appends `": "` followed by
the cause's debug representation. -/
def Error.debugFmt (e : Error) : String :=
  e.display ++
    (match e.src with
     | some c => ": " ++ c
     | none => "")

/-- A tag for each variant of `Error`, used to reason about the
enumeration itself (which kinds exist, how many wrap an external
cause). -/
inductive ErrorTag where
  | noRequestContentType
  | notMultipart
  | boundaryNotSpecified
  | partialHeaders
  | eofInMainHeaders
  | eofBeforeFirstBoundary
  | noCrLfAfterBoundary
  | eofInPartHeaders
  | eofInFile
  | eofInPart
  | httparse
  | io
  | hyper
  | utf8
  | decoding
deriving DecidableEq, Repr

/-- The variant tag of an `Error` value. -/
def Error.tag : Error → ErrorTag
  | .NoRequestContentType => .noRequestContentType
  | .NotMultipart => .notMultipart
  | .BoundaryNotSpecified => .boundaryNotSpecified
  | .PartialHeaders => .partialHeaders
  | .EofInMainHeaders => .eofInMainHeaders
  | .EofBeforeFirstBoundary => .eofBeforeFirstBoundary
  | .NoCrLfAfterBoundary => .noCrLfAfterBoundary
  | .EofInPartHeaders => .eofInPartHeaders
  | .EofInFile => .eofInFile
  | .EofInPart => .eofInPart
  | .Httparse _ => .httparse
  | .Io _ => .io
  | .Hyper _ => .hyper
  | .Utf8 _ => .utf8
  | .Decoding _ => .decoding

/-- The complete list of variant tags of the `Error` enumeration, in
source order (error.rs lines 18–43). -/
def ErrorTag.all : List ErrorTag :=
  [.noRequestContentType, .notMultipart, .boundaryNotSpecified,
   .partialHeaders, .eofInMainHeaders, .eofBeforeFirstBoundary,
   .noCrLfAfterBoundary, .eofInPartHeaders, .eofInFile, .eofInPart,
   .httparse, .io, .hyper, .utf8, .decoding]

/-- Whether the variant's payload, in the source declaration, is an
external error value: `Httparse(httparse::Error)`, `Io(io::Error)`,
`Hyper(hyper::Error)` and `Utf8(FromUtf8Error)` carry an error value of
an external library; `Decoding(Cow<str>)` carries only a message string,
and the remaining ten variants carry nothing. -/
def ErrorTag.wrapsExternalCause : ErrorTag → Bool
  | .httparse => true
  | .io => true
  | .hyper => true
  | .utf8 => true
  | _ => false

/-- The ten payload-free kinds of the taxonomy, in source order. -/
def payloadFreeKinds : List Error :=
  [.NoRequestContentType, .NotMultipart, .BoundaryNotSpecified,
   .PartialHeaders, .EofInMainHeaders, .EofBeforeFirstBoundary,
   .NoCrLfAfterBoundary, .EofInPartHeaders, .EofInFile, .EofInPart]

/-- The message stored by a `Decoding` error, if the value is one. -/
def Error.decodingMsg : Error → Option String
  | .Decoding m => some m
  | _ => none

/-- Whether `needle` starts `hay`. -/
def startsWithRun : List Char → List Char → Bool
  | [], _ => true
  | _ :: _, [] => false
  | n :: ns, h :: hs => n = h && startsWithRun ns hs

/-- Whether `needle` occurs contiguously anywhere in `hay`. -/
def containsRun (needle : List Char) : List Char → Bool
  | [] => startsWithRun needle []
  | h :: hs => startsWithRun needle (h :: hs) || containsRun needle hs

/-! ## The multipart parser core, modelled from the specification

Only `src/error.rs` is present in the repository; the parser the spec
describes (§2–§6) is modelled here from the spec's words.  The byte
source is presented at CRLF-line granularity (§4.1: boundary matching is
CRLF-line-oriented; a line atom is the text between two CRLFs, assumed
free of embedded CR/LF).  The storage-sink route for large files, nested
multipart recursion and the message-header precondition checks (handled
by the external HTTP-header collaborator per §6) are outside what claim
C6 exercises and are not modelled. -/

/-- Modelled from the spec: a `Part` (§3, §6) — its `name`, optional
`filename`, `content-type`, and content lines.  Presence of `filename`
means the File variant, absence the Field variant (§4.3); the Nested
variant (recursive sub-parts) is not modelled. -/
structure Part where
  name : String
  filename : Option String
  contentType : String
  content : List String
deriving DecidableEq, Repr

/-- Modelled from the spec: a mid-stream boundary line `--<boundary>` (§4.1). -/
def midBoundary (b : String) : String := "--" ++ b

/-- Modelled from the spec: a terminal boundary line `--<boundary>--` (§4.1). -/
def endBoundary (b : String) : String := "--" ++ b ++ "--"

/-- Modelled from the spec: the `Content-Disposition` value carrying the
part's `name` and optional `filename` parameters (§4.3, RFC 7578 form). -/
def dispositionValue (p : Part) : String :=
  "form-data; name=\"" ++ p.name ++ "\"" ++
    (match p.filename with
     | some fn => "; filename=\"" ++ fn ++ "\""
     | none => "")

/-- Modelled from the spec: the header block of a part as it appears on
the wire — `Name: Value` lines terminated by a blank line (§4.2, §6). -/
def headerLines (p : Part) : List String :=
  ["Content-Disposition" ++ ": " ++ dispositionValue p,
   "Content-Type" ++ ": " ++ p.contentType,
   ""]

/-- Modelled from the spec: the lines of one encoded part — header block
then content (§4.4). -/
def partLines (p : Part) : List String := headerLines p ++ p.content

/-- Modelled from the spec (§8 round-trip property): the canonical valid
multipart body for a list of parts — each part preceded by a mid-stream
boundary line, the whole terminated by the terminal boundary line. -/
def encode (b : String) : List Part → List String
  | [] => [endBoundary b]
  | p :: ps => midBoundary b :: (partLines p ++ encode b ps)

/-- Strip `ps` from the front of `cs`, failing unless `ps` is exactly there. -/
def dropExact : List Char → List Char → Option (List Char)
  | [], cs => some cs
  | _ :: _, [] => none
  | p :: ps, c :: cs => if c = p then dropExact ps cs else none

/-- Take characters up to the first double quote; fails without one. -/
def takeUntilQuote : List Char → Option (List Char × List Char)
  | [] => none
  | c :: cs =>
    if c = '"' then some ([], cs)
    else (takeUntilQuote cs).map (fun r => (c :: r.1, r.2))

/-- Split at the first colon; fails without one. -/
def splitAtColon : List Char → Option (List Char × List Char)
  | [] => none
  | c :: cs =>
    if c = ':' then some ([], cs)
    else (splitAtColon cs).map (fun r => (c :: r.1, r.2))

/-- Drop the single optional space after the colon of a `Name: Value` line. -/
def dropOneSpace : List Char → List Char
  | ' ' :: cs => cs
  | cs => cs

/-- Modelled from the spec: parse one header line as `Name: Value`
(§4.2); a line with no colon is malformed. -/
def splitHeaderLine (line : String) : Option (String × String) :=
  (splitAtColon line.toList).map
    (fun r => (String.mk r.1, String.mk (dropOneSpace r.2)))

/-- ASCII lower-casing of one character, for case-insensitive header names. -/
def lowerChar (c : Char) : Char :=
  if 'A' ≤ c ∧ c ≤ 'Z' then Char.ofNat (c.toNat + 32) else c

/-- ASCII lower-casing of a header name. -/
def lowerStr (s : String) : String := String.mk (s.toList.map lowerChar)

/-- Modelled from the spec: case-insensitive lookup in a header block
(§3: header names are case-insensitive); `key` is given lower-case. -/
def headerLookup (key : String) (hs : List (String × String)) : Option String :=
  (hs.find? (fun h => lowerStr h.1 = key)).map Prod.snd

/-- A complete quoted parameter value: characters up to a double quote
that must end the input. -/
def quotedParam (cs : List Char) : Option String :=
  match takeUntilQuote cs with
  | some (f, []) => some (String.mk f)
  | _ => none

/-- Modelled from the spec: parse what follows the closing quote of the
`name` parameter in a `Content-Disposition` value — nothing, or a
`; filename="..."` parameter (§4.3). -/
def parseFilenameTail : List Char → Option (Option String)
  | [] => some none
  | tail =>
    ((dropExact "; filename=\"".toList tail).bind quotedParam).map some

/-- Modelled from the spec: extract the `name` and optional `filename`
parameters from a `Content-Disposition` value (§4.3). -/
def parseDisposition (v : String) : Option (String × Option String) :=
  (dropExact "form-data; name=\"".toList v.toList).bind (fun rest =>
    (takeUntilQuote rest).bind (fun r =>
      (parseFilenameTail r.2).map (fun fn => (String.mk r.1, fn))))

/-- Modelled from the spec: the Part Classifier (§4.3) — from a part's
parsed header block and its content, build the `Part`: `name` and
`filename` from `Content-Disposition`, `Content-Type` defaulting to
`text/plain` when absent.  A part with no usable `Content-Disposition`
name yields `none` — the spec's open-question case (§4.3, §9), for which
the error taxonomy has no kind. -/
def classifyPart (hs : List (String × String)) (content : List String) : Option Part :=
  (headerLookup "content-disposition" hs).bind (fun v =>
    (parseDisposition v).map (fun nf =>
      ⟨nf.1, nf.2, (headerLookup "content-type" hs).getD "text/plain", content⟩))

/-- Modelled from the spec: the states of the Multipart Driver (§4.5)
reachable after the external collaborator has supplied the boundary —
`AwaitingFirstBoundary`, `ReadingPartHeaders` (with the headers read so
far, newest first) and `ReadingPartBody` (with the part's header block
and the content lines read so far, newest first). -/
inductive DriverState where
  | awaitingFirstBoundary
  | readingPartHeaders (hacc : List (String × String))
  | readingPartBody (hs : List (String × String)) (cacc : List String)
deriving DecidableEq, Repr

/-- Result of a parse: the ordered parts, an `Error`, or the spec's
open-question outcome (a part whose `Content-Disposition` name is
missing or unparsable, for which no `Error` kind exists — §9). -/
inductive ParseResult where
  | ok (parts : List Part)
  | err (e : Error)
  | missingDispositionName
deriving DecidableEq, Repr

/-- Modelled from the spec: the Multipart Driver state machine (§4.5),
one line per step.  `AwaitingFirstBoundary` discards preamble lines
until a boundary line (EOF there is `EofBeforeFirstBoundary`; an
immediately terminal boundary is the valid zero-part message).
`ReadingPartHeaders` accumulates `Name: Value` lines until the blank
line (EOF is `EofInPartHeaders`, a colon-free line is `PartialHeaders`).
`ReadingPartBody` accumulates content lines until the next boundary
line, then classifies and appends the completed part (EOF is
`EofInPart`, the buffer route — the storage route's `EofInFile` is not
modelled). -/
def runDriver (b : String) (acc : List Part) (st : DriverState) :
    List String → ParseResult
  | [] =>
    match st with
    | .awaitingFirstBoundary => .err .EofBeforeFirstBoundary
    | .readingPartHeaders _ => .err .EofInPartHeaders
    | .readingPartBody _ _ => .err .EofInPart
  | line :: rest =>
    match st with
    | .awaitingFirstBoundary =>
      if line = midBoundary b then
        runDriver b acc (.readingPartHeaders []) rest
      else if line = endBoundary b then
        .ok acc
      else
        runDriver b acc .awaitingFirstBoundary rest
    | .readingPartHeaders hacc =>
      if line = "" then
        runDriver b acc (.readingPartBody hacc.reverse []) rest
      else
        match splitHeaderLine line with
        | none => .err .PartialHeaders
        | some nv => runDriver b acc (.readingPartHeaders (nv :: hacc)) rest
    | .readingPartBody hs cacc =>
      if line = midBoundary b then
        match classifyPart hs cacc.reverse with
        | none => .missingDispositionName
        | some p => runDriver b (acc ++ [p]) (.readingPartHeaders []) rest
      else if line = endBoundary b then
        match classifyPart hs cacc.reverse with
        | none => .missingDispositionName
        | some p => .ok (acc ++ [p])
      else
        runDriver b acc (.readingPartBody hs (line :: cacc)) rest

/-- Modelled from the spec: the single entry point (§6) —
`parse(byte_source, boundary) -> Result<ordered sequence of Part, ErrorKind>`,
the byte source given at line granularity. -/
def parse (b : String) (lines : List String) : ParseResult :=
  runDriver b [] .awaitingFirstBoundary lines

/-- The header block the wire format of `headerLines` parses back to. -/
def partHeaderBlock (p : Part) : List (String × String) :=
  [("Content-Disposition", dispositionValue p),
   ("Content-Type", p.contentType)]

/-- Well-formedness of a part with respect to a boundary: the quoted
`name`/`filename` parameters contain no double quote, and no content
line coincides with a boundary line of `b` (the spec's §8 boundary
property: boundary text inside content sits mid-line, never as a full
line). -/
def WFPart (b : String) (p : Part) : Prop :=
  '"' ∉ p.name.toList ∧
  (∀ fn ∈ p.filename, '"' ∉ fn.toList) ∧
  (∀ l ∈ p.content, l ≠ midBoundary b ∧ l ≠ endBoundary b)

instance (b : String) (p : Part) : Decidable (WFPart b p) := by
  unfold WFPart
  infer_instance

end MimeMultipart

namespace MimeMultipart

/-! ## Helper lemmas -/

theorem append_ne_empty_left (s t : String) (h : s.length ≠ 0) : s ++ t ≠ "" := by
  intro he
  apply h
  have hl := congrArg String.length he
  rw [String.length_append] at hl
  rw [show ("" : String).length = 0 from rfl] at hl
  omega

theorem midBoundary_ne_endBoundary (b : String) : midBoundary b ≠ endBoundary b := by
  intro h
  have hl := congrArg String.length h
  simp only [midBoundary, endBoundary, String.length_append] at hl
  rw [show ("--" : String).length = 2 from rfl] at hl
  omega

/-! ## Claim theorems for the error type -/

/-- **C1**: the `Error` enumeration provides the three precondition
kinds, the five structural-truncation kinds (one per grammar point where
EOF can occur) and the two grammar-violation kinds, all ten pairwise
distinct. -/
theorem error_taxonomy_kinds_distinct :
    ([Error.NoRequestContentType, Error.NotMultipart, Error.BoundaryNotSpecified,
      Error.PartialHeaders, Error.EofInMainHeaders, Error.EofBeforeFirstBoundary,
      Error.NoCrLfAfterBoundary, Error.EofInPartHeaders, Error.EofInFile,
      Error.EofInPart] : List Error).Nodup := by decide

/-- **C2** (failing input): for `Error::Io` wrapping an I/O error, the
`StdError` impl leaves `source()` at its trait default of `None`, so the
`Debug` branch that would append the underlying cause never fires: the
`Debug` text equals the `Display` text and no cause is chained. -/
theorem io_error_source_lost :
    (Error.Io ⟨"disk failure"⟩).src = none ∧
    (Error.Io ⟨"disk failure"⟩).debugFmt = "Io: disk failure" ∧
    (Error.Io ⟨"disk failure"⟩).display = "Io: disk failure" := by
  refine ⟨rfl, by rfl, rfl⟩

/-- **C3**: each `From` impl wraps the external error unchanged —
`Io` from `io::Error`, `Httparse` from `httparse::Error`, `Hyper` from
`hyper::Error`, `Utf8` from `FromUtf8Error` — and none of the images is
one of the payload-free structural kinds; in particular the third-party
header-grammar kind `Httparse` is distinct from all five EOF kinds. -/
theorem from_impls_wrap_unchanged :
    ∀ (ei : IoError) (eh : HttparseError) (ey : HyperError) (eu : FromUtf8Error),
      Error.fromIo ei = Error.Io ei ∧
      Error.fromHttparse eh = Error.Httparse eh ∧
      Error.fromHyper ey = Error.Hyper ey ∧
      Error.fromUtf8 eu = Error.Utf8 eu ∧
      Error.fromHttparse eh ≠ Error.EofInMainHeaders ∧
      Error.fromHttparse eh ≠ Error.EofInPartHeaders ∧
      Error.fromHttparse eh ≠ Error.EofInPart ∧
      Error.fromHttparse eh ≠ Error.EofInFile ∧
      Error.fromHttparse eh ≠ Error.EofBeforeFirstBoundary ∧
      Error.fromIo ei ∉ payloadFreeKinds ∧
      Error.fromHyper ey ∉ payloadFreeKinds ∧
      Error.fromUtf8 eu ∉ payloadFreeKinds := by
  intro ei eh ey eu
  refine ⟨rfl, rfl, rfl, rfl, ?_, ?_, ?_, ?_, ?_, ?_, ?_, ?_⟩ <;>
    simp [Error.fromIo, Error.fromHttparse, Error.fromHyper, Error.fromUtf8,
      payloadFreeKinds]

/-- **C4** (counterexample): the number of `Error` variants that wrap an
underlying external-cause error value is not three. -/
theorem wrapping_variants_not_three :
    ¬ (ErrorTag.all.filter ErrorTag.wrapsExternalCause).length = 3 := by decide

/-- **C4** (amended): the error set is a closed enumeration — every
`Error` value's variant tag is among the fifteen listed — and exactly
four variants (`Httparse`, `Io`, `Hyper`, `Utf8`) wrap an underlying
external-cause error value. -/
theorem error_closed_enum_four_wrapping :
    (∀ e : Error, e.tag ∈ ErrorTag.all) ∧
    (ErrorTag.all.filter ErrorTag.wrapsExternalCause).length = 4 := by
  refine ⟨?_, by decide⟩
  intro e
  cases e <;> first
    | decide
    | (simp only [Error.tag]; decide)

/-- **C5**: the taxonomy is closed (fifteen variant tags, every value's
tag among them) and no variant denotes a part missing its
`Content-Disposition` header or its `name` parameter: no variant's
`description` text mentions `Content-Disposition` at all. -/
theorem no_kind_for_missing_disposition_name :
    ErrorTag.all.length = 15 ∧
    (∀ e : Error, e.tag ∈ ErrorTag.all) ∧
    (∀ e : Error, containsRun "Content-Disposition".toList
      e.description.toList = false) := by
  refine ⟨by decide, ?_, ?_⟩ <;> intro e <;> cases e <;> first
    | decide
    | (simp only [Error.tag, Error.description]; decide)

/-- **C7**: on the ten payload-free kinds, `Display` outputs are
pairwise distinct and `description()` outputs are pairwise distinct, so
the kind taxonomy is unambiguous from its messages. -/
theorem kind_messages_unambiguous :
    (payloadFreeKinds.map Error.display).Nodup ∧
    (payloadFreeKinds.map Error.description).Nodup := by
  exact ⟨by decide, by decide⟩

/-- **C8**: a `Decoding` error stores its message, and its `Display`
output is the message prefixed by `"Decoding: "`. -/
theorem decoding_carries_message (m : String) :
    (Error.Decoding m).decodingMsg = some m ∧
    (Error.Decoding m).display = "Decoding: " ++ m :=
  ⟨rfl, rfl⟩

/-- **C9**: `Display` formatting is total — for every `Error` value, of
every variant and any payload (in particular `Decoding` with an
arbitrary message and `NotMultipart`), the `Display` output is a
(nonempty) string. -/
theorem display_total_nonempty (e : Error) : 0 < e.display.length := by
  have key : ∀ (s t : String), 0 < s.length → 0 < (s ++ t).length := by
    intro s t h
    rw [String.length_append]
    omega
  cases e <;> first
    | decide
    | exact key _ _ (by decide)

/-- **C10**: for every `Error` value the `Debug` representation equals
the `Display` representation, because `source()` keeps its default of
`None` (the `StdError` impl overrides only `description`), so the
`Debug` branch appending the cause is unreachable. -/
theorem debug_eq_display (e : Error) :
    e.src = none ∧ e.debugFmt = e.display := by
  refine ⟨rfl, ?_⟩
  show e.display ++ "" = e.display
  exact String.append_empty e.display

end MimeMultipart

namespace MimeMultipart

/-! ## Round-trip lemmas for the modelled parser -/

theorem splitAtColon_append (pre post : List Char) (h : ':' ∉ pre) :
    splitAtColon (pre ++ ':' :: post) = some (pre, post) := by
  induction pre with
  | nil => simp [splitAtColon]
  | cons c cs ih =>
    have hc : ¬ c = ':' := fun e => h (by simp [e])
    simp only [List.cons_append, splitAtColon, if_neg hc, List.append_eq,
      ih (fun hm => h (List.mem_cons_of_mem _ hm)), Option.map_some]
    rfl

theorem takeUntilQuote_append (pre post : List Char) (h : '"' ∉ pre) :
    takeUntilQuote (pre ++ '"' :: post) = some (pre, post) := by
  induction pre with
  | nil => simp [takeUntilQuote]
  | cons c cs ih =>
    have hc : ¬ c = '"' := fun e => h (by simp [e])
    simp only [List.cons_append, takeUntilQuote, if_neg hc, List.append_eq,
      ih (fun hm => h (List.mem_cons_of_mem _ hm)), Option.map_some]
    rfl

theorem dropExact_append (ps cs : List Char) : dropExact ps (ps ++ cs) = some cs := by
  induction ps with
  | nil => simp [dropExact]
  | cons p ps ih => simp [dropExact, List.append_eq, ih]

theorem splitHeaderLine_named (n v : String) (h : ':' ∉ n.toList) :
    splitHeaderLine (n ++ ": " ++ v) = some (n, v) := by
  unfold splitHeaderLine
  have hl : (n ++ ": " ++ v).toList = n.toList ++ ':' :: ' ' :: v.toList := by
    show ((n ++ ": ") ++ v).data = n.data ++ ':' :: ' ' :: v.data
    rw [String.data_append, String.data_append, List.append_assoc]
    rfl
  rw [hl, splitAtColon_append _ _ h]
  rfl

theorem quotedParam_append (f : String) (hq : '"' ∉ f.toList) :
    quotedParam (f.toList ++ ['"']) = some f := by
  unfold quotedParam
  have h2 : f.toList ++ ['"'] = f.toList ++ '"' :: [] := rfl
  rw [h2, takeUntilQuote_append _ _ hq]
  rfl

theorem parseFilenameTail_none : parseFilenameTail [] = some none := rfl

theorem parseFilenameTail_some (f : String) (hq : '"' ∉ f.toList) :
    parseFilenameTail ("; filename=\"".toList ++ (f.toList ++ ['"'])) = some (some f) := by
  have h1 : parseFilenameTail ("; filename=\"".toList ++ (f.toList ++ ['"']))
      = ((dropExact "; filename=\"".toList
            ("; filename=\"".toList ++ (f.toList ++ ['"']))).bind quotedParam).map some := rfl
  rw [h1, dropExact_append]
  show (quotedParam (f.toList ++ ['"'])).map some = some (some f)
  rw [quotedParam_append _ hq]
  rfl

end MimeMultipart

namespace MimeMultipart

theorem parseDisposition_value (p : Part)
    (hn : '"' ∉ p.name.toList)
    (hf : ∀ fn ∈ p.filename, '"' ∉ fn.toList) :
    parseDisposition (dispositionValue p) = some (p.name, p.filename) := by
  cases hfn : p.filename with
  | none =>
    have hl : (dispositionValue p).toList
        = "form-data; name=\"".toList ++ (p.name.toList ++ '"' :: []) := by
      unfold dispositionValue
      rw [hfn]
      show ((("form-data; name=\"" ++ p.name) ++ "\"") ++ "").data
          = "form-data; name=\"".data ++ (p.name.data ++ '"' :: [])
      rw [String.data_append, String.data_append, String.data_append,
        List.append_assoc, List.append_assoc]
      rfl
    unfold parseDisposition
    rw [hl, dropExact_append]
    show (takeUntilQuote (p.name.toList ++ '"' :: [])).bind (fun r =>
        (parseFilenameTail r.2).map (fun fn => (String.mk r.1, fn)))
      = some (p.name, none)
    rw [takeUntilQuote_append _ _ hn]
    show (parseFilenameTail []).map (fun fn => (String.mk p.name.toList, fn))
      = some (p.name, none)
    rw [parseFilenameTail_none]
    rfl
  | some fn =>
    have hq : '"' ∉ fn.toList := hf fn (by simp [hfn])
    have hl : (dispositionValue p).toList
        = "form-data; name=\"".toList ++ (p.name.toList ++ '"' ::
            ("; filename=\"".toList ++ (fn.toList ++ ['"']))) := by
      unfold dispositionValue
      rw [hfn]
      show ((("form-data; name=\"" ++ p.name) ++ "\"") ++ (("; filename=\"" ++ fn) ++ "\"")).data
          = "form-data; name=\"".data ++ (p.name.data ++ '"' ::
              ("; filename=\"".data ++ (fn.data ++ ['"'])))
      rw [String.data_append, String.data_append, String.data_append,
        String.data_append, String.data_append,
        List.append_assoc, List.append_assoc, List.append_assoc]
      rfl
    unfold parseDisposition
    rw [hl, dropExact_append]
    show (takeUntilQuote (p.name.toList ++ '"' ::
        ("; filename=\"".toList ++ (fn.toList ++ ['"'])))).bind (fun r =>
        (parseFilenameTail r.2).map (fun fn2 => (String.mk r.1, fn2)))
      = some (p.name, some fn)
    rw [takeUntilQuote_append _ _ hn]
    show (parseFilenameTail ("; filename=\"".toList ++ (fn.toList ++ ['"']))).map
        (fun fn2 => (String.mk p.name.toList, fn2)) = some (p.name, some fn)
    rw [parseFilenameTail_some _ hq]
    rfl

theorem headerLookup_cd (p : Part) :
    headerLookup "content-disposition" (partHeaderBlock p)
      = some (dispositionValue p) := rfl

theorem headerLookup_ct (p : Part) :
    headerLookup "content-type" (partHeaderBlock p)
      = some p.contentType := rfl

theorem classifyPart_block (p : Part)
    (hn : '"' ∉ p.name.toList)
    (hf : ∀ fn ∈ p.filename, '"' ∉ fn.toList) :
    classifyPart (partHeaderBlock p) p.content = some p := by
  unfold classifyPart
  rw [headerLookup_cd]
  show (parseDisposition (dispositionValue p)).map (fun nf =>
      ⟨nf.1, nf.2, (headerLookup "content-type" (partHeaderBlock p)).getD "text/plain",
        p.content⟩) = some p
  rw [parseDisposition_value p hn hf, headerLookup_ct]
  rfl

end MimeMultipart

namespace MimeMultipart

/-! ## Stepping lemmas for the driver state machine -/

theorem runDriver_first_mid (b : String) (acc : List Part) (rest : List String) :
    runDriver b acc .awaitingFirstBoundary (midBoundary b :: rest)
      = runDriver b acc (.readingPartHeaders []) rest := by
  rw [runDriver, if_pos rfl]

theorem runDriver_first_end (b : String) (acc : List Part) (rest : List String) :
    runDriver b acc .awaitingFirstBoundary (endBoundary b :: rest) = .ok acc := by
  rw [runDriver, if_neg (Ne.symm (midBoundary_ne_endBoundary b)), if_pos rfl]

theorem runDriver_header_step (b : String) (acc : List Part)
    (hacc : List (String × String)) (line : String) (rest : List String)
    (n v : String) (hne : line ≠ "") (hsplit : splitHeaderLine line = some (n, v)) :
    runDriver b acc (.readingPartHeaders hacc) (line :: rest)
      = runDriver b acc (.readingPartHeaders ((n, v) :: hacc)) rest := by
  rw [runDriver, if_neg hne, hsplit]

theorem runDriver_blank_step (b : String) (acc : List Part)
    (hacc : List (String × String)) (rest : List String) :
    runDriver b acc (.readingPartHeaders hacc) ("" :: rest)
      = runDriver b acc (.readingPartBody hacc.reverse []) rest := by
  rw [runDriver, if_pos rfl]

theorem runDriver_body_cons (b : String) (acc : List Part)
    (hs : List (String × String)) (cacc : List String) (line : String)
    (rest : List String) (h1 : line ≠ midBoundary b) (h2 : line ≠ endBoundary b) :
    runDriver b acc (.readingPartBody hs cacc) (line :: rest)
      = runDriver b acc (.readingPartBody hs (line :: cacc)) rest := by
  rw [runDriver, if_neg h1, if_neg h2]

theorem runDriver_body_mid (b : String) (acc : List Part)
    (hs : List (String × String)) (cacc : List String) (rest : List String)
    (p : Part) (hp : classifyPart hs cacc.reverse = some p) :
    runDriver b acc (.readingPartBody hs cacc) (midBoundary b :: rest)
      = runDriver b (acc ++ [p]) (.readingPartHeaders []) rest := by
  rw [runDriver, if_pos rfl, hp]

theorem runDriver_body_end (b : String) (acc : List Part)
    (hs : List (String × String)) (cacc : List String) (rest : List String)
    (p : Part) (hp : classifyPart hs cacc.reverse = some p) :
    runDriver b acc (.readingPartBody hs cacc) (endBoundary b :: rest)
      = .ok (acc ++ [p]) := by
  rw [runDriver, if_neg (Ne.symm (midBoundary_ne_endBoundary b)), if_pos rfl, hp]

theorem runDriver_headerLines (b : String) (acc : List Part) (p : Part)
    (ls : List String) :
    runDriver b acc (.readingPartHeaders []) (headerLines p ++ ls)
      = runDriver b acc (.readingPartBody (partHeaderBlock p) []) ls := by
  simp only [headerLines, List.cons_append, List.nil_append]
  rw [runDriver_header_step _ _ _ _ _ "Content-Disposition" (dispositionValue p)
      (append_ne_empty_left _ _ (by decide)) (splitHeaderLine_named _ _ (by decide)),
    runDriver_header_step _ _ _ _ _ "Content-Type" p.contentType
      (append_ne_empty_left _ _ (by decide)) (splitHeaderLine_named _ _ (by decide)),
    runDriver_blank_step]
  rfl

theorem runDriver_content (b : String) (acc : List Part)
    (hs : List (String × String)) (content : List String) (cacc ls : List String)
    (hc : ∀ l ∈ content, l ≠ midBoundary b ∧ l ≠ endBoundary b) :
    runDriver b acc (.readingPartBody hs cacc) (content ++ ls)
      = runDriver b acc (.readingPartBody hs (content.reverse ++ cacc)) ls := by
  induction content generalizing cacc with
  | nil => simp
  | cons l rest ih =>
    rw [List.cons_append,
      runDriver_body_cons _ _ _ _ _ _ (hc l (by simp)).1 (hc l (by simp)).2,
      ih (l :: cacc) (fun x hx => hc x (List.mem_cons_of_mem _ hx)),
      List.reverse_cons, List.append_assoc]
    rfl

theorem runDriver_encodeParts (b : String) (p : Part) (ps : List Part) :
    ∀ (acc : List Part), WFPart b p → (∀ q ∈ ps, WFPart b q) →
    runDriver b acc (.readingPartHeaders []) (partLines p ++ encode b ps)
      = ParseResult.ok (acc ++ p :: ps) := by
  induction ps generalizing p with
  | nil =>
    intro acc hp _
    rw [partLines, List.append_assoc, runDriver_headerLines, encode,
      runDriver_content _ _ _ _ _ _ hp.2.2, List.append_nil,
      runDriver_body_end _ _ _ _ _ p
        (by rw [List.reverse_reverse]; exact classifyPart_block p hp.1 hp.2.1)]
  | cons q qs ih =>
    intro acc hp hq
    rw [partLines, List.append_assoc, runDriver_headerLines, encode,
      runDriver_content _ _ _ _ _ _ hp.2.2, List.append_nil,
      runDriver_body_mid _ _ _ _ _ p
        (by rw [List.reverse_reverse]; exact classifyPart_block p hp.1 hp.2.1),
      ih q (acc ++ [p]) (hq q (by simp)) (fun r hr => hq r (by simp [hr])),
      List.append_assoc]
    rfl

end MimeMultipart

namespace MimeMultipart

/-- **C6** (spec-modelled): for every valid multipart body — the
canonical encoding of any list of well-formed parts with boundary `b` —
the `parse` entry point returns `ok` with exactly those `Part` values,
in the original order; in particular the part count is preserved and
each part's `name`, `filename` and `content-type` equal those written in
the corresponding source part headers verbatim. -/
theorem parse_encode_ok (b : String) (parts : List Part)
    (h : ∀ p ∈ parts, WFPart b p) :
    parse b (encode b parts) = ParseResult.ok parts := by
  cases parts with
  | nil => rw [parse, encode, runDriver_first_end]
  | cons p ps =>
    rw [parse, encode, runDriver_first_mid,
      runDriver_encodeParts b p ps [] (h p (by simp)) (fun q hq => h q (by simp [hq]))]
    rfl

/-- Witness for `parse_encode_ok` at a concrete one-part body. -/
theorem parse_encode_ok_witness :
    (∀ p ∈ [Part.mk "a" none "text/plain" ["hello"]],
        WFPart "B" p) ∧
      parse "B" (encode "B" [Part.mk "a" none "text/plain" ["hello"]])
        = ParseResult.ok [Part.mk "a" none "text/plain" ["hello"]] :=
  ⟨by decide, parse_encode_ok "B" [Part.mk "a" none "text/plain" ["hello"]] (by decide)⟩

end MimeMultipart
